import Mathlib

/-!
Shallow embedding of `src/tick_taker.py` (repository `illoyd/alpaca-algos`).

Modelling conventions:
* Python strings (instrument symbols, order ids, order sides) are lists of
  Unicode code points (`List Nat`); `str.upper` / `str.lower` act pointwise
  on the ASCII range, which is all this program handles.
* Python floats holding money amounts, sizes and share quantities are
  modelled as rationals (`ℚ`); Python's `round(x, 2)` is round-half-to-even
  at two decimals, transcribed exactly.
* Timestamps are rationals measured in milliseconds, so the source's
  `pd.Timedelta(np.timedelta64(50, 'ms'))` is the literal `50`.
* The Runner's order registry (a Python dict keyed by order id) is a
  `List Order`; dict deletion and in-place mutation of a registry entry are
  `removeOrder` and `setOrder`.  Well-formed registries have pairwise
  distinct ids, carried as a `Nodup` hypothesis where it matters.
* Broker side effects (order submission) are returned as an explicit list of
  `SubmitReq` actions; exceptions are `Except`.
-/

namespace TickTaker

/-- Python strings are modelled as their list of Unicode code points. -/
abbrev Sym : Type := List Nat

/-- Action of Python `str.upper` on one ASCII code point. -/
def charUpper (n : Nat) : Nat := if 97 ≤ n ∧ n ≤ 122 then n - 32 else n

/-- Action of Python `str.lower` on one ASCII code point. -/
def charLower (n : Nat) : Nat := if 65 ≤ n ∧ n ≤ 90 then n + 32 else n

/-- Python `str.upper` over a whole string. -/
def sUpper (s : Sym) : Sym := s.map charUpper

/-- Python `str.lower` over a whole string. -/
def sLower (s : Sym) : Sym := s.map charLower

/-- The string literal `"buy"` from the source. -/
def buySide : Sym := [98, 117, 121]

/-- The string literal `"sell"` from the source. -/
def sellSide : Sym := [115, 101, 108, 108]

/-- Module-level constant `IMBALANCE_THRESHOLD = 1.8` of `tick_taker.py`. -/
def IMBALANCE_THRESHOLD : ℚ := 9 / 5

/-- Python `round` to an integer: round half to even (banker's rounding). -/
def roundHalfEven (x : ℚ) : ℤ :=
  let f : ℤ := ⌊x⌋
  let r : ℚ := x - f
  if r < 1 / 2 then f
  else if 1 / 2 < r then f + 1
  else if f % 2 = 0 then f else f + 1

/-- Python `round(x, 2)`: round half to even at two decimal places. -/
def round2 (x : ℚ) : ℚ := (roundHalfEven (x * 100) : ℚ) / 100

/-- The `Quote` entity of `tick_taker.py`.  `has_traded` is the attribute set
in `__init__`.  The extra field `traded` models the attribute that the Python
statement `quote.traded = True` in `TickTakerStrategy.on_trade` dynamically
creates on the instance: it is distinct from `has_traded` (Python silently
adds a new attribute rather than updating `has_traded`) and is never read by
any code path.  A freshly constructed `Quote` has neither flag set. -/
structure Quote where
  symbol : Sym
  bid : ℚ
  ask : ℚ
  bid_size : ℚ
  ask_size : ℚ
  timestamp : ℚ
  has_traded : Bool := false
  traded : Bool := false
deriving DecidableEq, Repr

/-- Derived property `Quote.spread`: `round(self.ask - self.bid, 2)`. -/
def Quote.spread (q : Quote) : ℚ := round2 (q.ask - q.bid)

/-- A trade notification as consumed by `TickTakerStrategy.on_trade`
(`data.symbol`, `data.price`, `data.size`, `data.timestamp`). -/
structure TradeData where
  symbol : Sym
  price : ℚ
  size : ℚ
  timestamp : ℚ
deriving DecidableEq, Repr

/-- The `Order` entity of `tick_taker.py`.  The constructor uppercases the
symbol and lowercases the side (`_symbol.upper()`, `_side.lower()`); the
smart constructor `Order.from_data` below applies those conversions. -/
structure Order where
  id : Sym
  symbol : Sym
  side : Sym
  quantity : ℚ
  filled_quantity : ℚ
deriving DecidableEq, Repr

/-- `Order.is_buy`: `self.side == 'buy'`. -/
def Order.is_buy (o : Order) : Bool := o.side == buySide

/-- `Order.is_sell`: `self.side == 'sell'`. -/
def Order.is_sell (o : Order) : Bool := o.side == sellSide

/-- `Order.directional_quantity`: `self.quantity * (1 if self.is_buy else -1)`. -/
def Order.directional_quantity (o : Order) : ℚ :=
  o.quantity * (if o.is_buy then 1 else -1)

/-- `Order.is_filled`: `self.quantity == self.filled_quantity`. -/
def Order.is_filled (o : Order) : Bool := o.quantity == o.filled_quantity

/-- `Order.pending`: `self.quantity - self.filled_quantity`. -/
def Order.pending (o : Order) : ℚ := o.quantity - o.filled_quantity

/-- An order-update notification as consumed by the Runner's
`on_trade_updates` callback: the event kind plus the embedded order snapshot
`data.order` (`id`, `symbol`, `side`, `qty`, `filled_qty`). -/
structure UpdateData where
  event : Sym
  oid : Sym
  osymbol : Sym
  oside : Sym
  oqty : ℚ
  filled_qty : ℚ
deriving DecidableEq, Repr

/-- The event strings compared against in `on_trade_updates`:
`'fill'`, `'partial_fill'`, `'canceled'`, `'rejected'`. -/
def fillEvent : Sym := [102, 105, 108, 108]

/-- The `'partial_fill'` event string. -/
def partFillEvent : Sym := [112, 97, 114, 116, 105, 97, 108, 95, 102, 105, 108, 108]

/-- The `'canceled'` event string. -/
def canceledEvent : Sym := [99, 97, 110, 99, 101, 108, 101, 100]

/-- The `'rejected'` event string. -/
def rejectedEvent : Sym := [114, 101, 106, 101, 99, 116, 101, 100]

/-- `Order.from_data`: build an `Order` from a notification's embedded order
snapshot.  The `Order.__init__` body stores `_symbol.upper()` and
`_side.lower()` and starts `filled_quantity` at `0.0`. -/
def Order.from_data (d : UpdateData) : Order :=
  { id := d.oid
    symbol := sUpper d.osymbol
    side := sLower d.oside
    quantity := d.oqty
    filled_quantity := 0 }

/-- Look up an order by id in the Runner's registry (`self.orders[order_id]`). -/
def lookupOrder (reg : List Order) (oid : Sym) : Option Order :=
  reg.find? (fun o => o.id == oid)

/-- Dict deletion `del self.runner.orders[order.id]`. -/
def removeOrder (reg : List Order) (oid : Sym) : List Order :=
  reg.filter (fun o => !(o.id == oid))

/-- In-place mutation of the registry entry with the given id (Python mutates
the shared `Order` object, which is the dict's value for that id). -/
def setOrder (reg : List Order) (oid : Sym) (o' : Order) : List Order :=
  reg.map (fun o => if o.id == oid then o' else o)

/-- The state a `TickTakerStrategy` instance owns: its configuration
(`symbol`, `max_quantity`, `quantity_per_trade`) and its mutable fields
(`current_quote`, `previous_quote`, `position`, `level_changes`).  The
Runner-owned order registry is passed separately to each operation. -/
structure TickState where
  symbol : Sym
  max_quantity : ℚ
  quantity_per_trade : ℚ
  current_quote : Quote
  previous_quote : Quote
  position : ℚ
  level_changes : Nat
deriving DecidableEq, Repr

/-- `Strategy.orders`: the filtered view of the Runner's registry holding the
orders whose `symbol` equals the strategy's symbol. -/
def ordersView (s : TickState) (reg : List Order) : List Order :=
  reg.filter (fun o => o.symbol == s.symbol)

/-- `TickTakerStrategy.total_position`:
`self.position + sum(order.directional_quantity for order in self.orders.values())`. -/
def total_position (s : TickState) (reg : List Order) : ℚ :=
  s.position + ((ordersView s reg).map Order.directional_quantity).sum

/-- `TickTakerStrategy.can_buy`: `self.total_position() < self.max_quantity`. -/
def can_buy (s : TickState) (reg : List Order) : Prop :=
  total_position s reg < s.max_quantity

instance (s : TickState) (reg : List Order) : Decidable (can_buy s reg) :=
  inferInstanceAs (Decidable (total_position s reg < s.max_quantity))

/-- `TickTakerStrategy.buyable_quantity`:
`min(self.quantity_per_trade, self.max_quantity - self.total_position())`. -/
def buyable_quantity (s : TickState) (reg : List Order) : ℚ :=
  min s.quantity_per_trade (s.max_quantity - total_position s reg)

/-- `TickTakerStrategy.can_sell`: `self.total_position() > 0`. -/
def can_sell (s : TickState) (reg : List Order) : Prop :=
  0 < total_position s reg

instance (s : TickState) (reg : List Order) : Decidable (can_sell s reg) :=
  inferInstanceAs (Decidable (0 < total_position s reg))

/-- `TickTakerStrategy.sellable_quantity`:
`min(self.quantity_per_trade, self.total_position())`. -/
def sellable_quantity (s : TickState) (reg : List Order) : ℚ :=
  min s.quantity_per_trade (total_position s reg)

/-- `TickTakerStrategy.on_quote`: accept the quote as the new current level
only if its bid differs from the tracked bid, its ask differs from the
tracked ask, and its spread is exactly `0.01`; on acceptance shift
`current → previous`, store the new quote and bump `level_changes`. -/
def on_quote (s : TickState) (q : Quote) : TickState :=
  if s.current_quote.bid ≠ q.bid ∧ s.current_quote.ask ≠ q.ask ∧ q.spread = 1 / 100 then
    { s with
      previous_quote := s.current_quote
      current_quote := q
      level_changes := s.level_changes + 1 }
  else s

/-- Folding `on_quote` over a sequence of quote notifications, in arrival
order. -/
def processQuotes (s : TickState) : List Quote → TickState
  | [] => s
  | q :: qs => processQuotes (on_quote s q) qs

/-- An outbound order-submission request, as passed to
`self.api.submit_order` (the `type='limit'` and `time_in_force='ioc'`
arguments are constants in the source and are not repeated here). -/
structure SubmitReq where
  symbol : Sym
  qty : ℚ
  side : Sym
  limit_price : ℚ
deriving DecidableEq, Repr

/-- The buy branch of `TickTakerStrategy.on_trade`: trade printed at the
current ask, bid size exceeding ask size times the imbalance threshold, and
room to buy.  `quote = self.current_quote` is a reference to the current
quote object, so the assignment `quote.traded = True` mutates the strategy's
current quote in place; note it writes the dynamically created attribute
`traded`, not `has_traded`.  The submission is an IOC limit buy at the ask
for `buyable_quantity` shares. -/
def buyBranch (s : TickState) (reg : List Order) (d : TradeData) :
    TickState × List SubmitReq :=
  if d.price = s.current_quote.ask
      ∧ s.current_quote.ask_size * IMBALANCE_THRESHOLD < s.current_quote.bid_size
      ∧ can_buy s reg then
    ({ s with current_quote := { s.current_quote with traded := true } },
      [{ symbol := s.symbol
         qty := buyable_quantity s reg
         side := buySide
         limit_price := s.current_quote.ask }])
  else (s, [])

/-- The sell branch of `TickTakerStrategy.on_trade`, symmetric to the buy
branch: trade printed at the current bid, ask size exceeding bid size times
the imbalance threshold, and a positive total position to reduce. -/
def sellBranch (s : TickState) (reg : List Order) (d : TradeData) :
    TickState × List SubmitReq :=
  if d.price = s.current_quote.bid
      ∧ s.current_quote.bid_size * IMBALANCE_THRESHOLD < s.current_quote.ask_size
      ∧ can_sell s reg then
    ({ s with current_quote := { s.current_quote with traded := true } },
      [{ symbol := s.symbol
         qty := sellable_quantity s reg
         side := sellSide
         limit_price := s.current_quote.bid }])
  else (s, [])

/-- Body of `TickTakerStrategy.on_trade` after the four ignore guards: the
buy branch runs first, then the sell branch runs on the resulting state (the
source's `quote` variable aliases the mutated current quote; the order
registry is untouched by a submission, so the sell branch sees the same
orders). -/
def evalSignals (s : TickState) (reg : List Order) (d : TradeData) :
    TickState × List SubmitReq :=
  ((sellBranch (buyBranch s reg d).1 reg d).1,
    (buyBranch s reg d).2 ++ (sellBranch (buyBranch s reg d).1 reg d).2)

/-- `TickTakerStrategy.on_trade`: the four ignore guards (wrong symbol,
already-traded level, trade too recent relative to the current quote, trade
too small), then signal evaluation. -/
def on_trade (s : TickState) (reg : List Order) (d : TradeData) :
    TickState × List SubmitReq :=
  if d.symbol ≠ s.symbol then (s, [])
  else if s.current_quote.has_traded then (s, [])
  else if d.timestamp ≤ s.current_quote.timestamp + 50 then (s, [])
  else if d.size < 100 then (s, [])
  else evalSignals s reg d

/-- `TickTakerStrategy.on_trade_updates`, acting on the strategy state and
the Runner's registry.  `o` is the registry's `Order` object for the
notification's order id (the Runner passes `self.orders[order_id]`), and `f`
is the notification's `float(data.order['filled_qty'])`.  Python mutates `o`
in place, which is the registry entry, so the partial-fill path is
`setOrder`; the settle and cancel paths end in dict deletion. -/
def strat_on_trade_updates (s : TickState) (reg : List Order) (ev : Sym)
    (o : Order) (f : ℚ) : TickState × List Order :=
  if o.symbol ≠ s.symbol then (s, reg)
  else if ev = fillEvent ∨ ev = partFillEvent then
    if ({ o with filled_quantity := f } : Order).is_filled then
      ({ s with
          position := s.position
            + ({ o with filled_quantity := f } : Order).directional_quantity },
        removeOrder reg o.id)
    else (s, setOrder reg o.id { o with filled_quantity := f })
  else if ev = canceledEvent ∨ ev = rejectedEvent then
    (s, removeOrder reg o.id)
  else (s, reg)

/-- The Runner's `on_trade_updates` callback followed by dispatch to one
tick-taking strategy: fetch the order by id, lazily inserting a fresh
`Order.from_data` if the id is unknown, then hand the (shared, mutable)
order to the strategy. -/
def runner_on_trade_updates (s : TickState) (reg : List Order) (d : UpdateData) :
    TickState × List Order :=
  match lookupOrder reg d.oid with
  | some o => strat_on_trade_updates s reg d.event o d.filled_qty
  | none =>
      let o := Order.from_data d
      strat_on_trade_updates s (reg ++ [o]) d.event o d.filled_qty

/-- Registration of a strategy's own submission once the broker's first
update notification for it arrives: the Runner's lazy-insert path builds the
`Order` through `Order.__init__` from the broker's echo of the submitted
symbol, side and quantity, with nothing filled yet. -/
def Order.from_submit (oid : Sym) (r : SubmitReq) : Order :=
  { id := oid
    symbol := sUpper r.symbol
    side := sLower r.side
    quantity := r.qty
    filled_quantity := 0 }

/-- Outcome of the broker position query `self.api.get_position(symbol)`:
either a position quantity, or an `APIError` carrying a numeric code. -/
inductive PositionResult where
  | ok (qty : ℚ)
  | apiError (code : Nat)
deriving DecidableEq, Repr

/-- `TickTakerStrategy.start`: store the broker-reported position; on an
`APIError` with code `40410000` fall back to position `0`; re-raise any
other `APIError` (`raise` with no argument). -/
def tick_start (s : TickState) (r : PositionResult) : Except Nat TickState :=
  match r with
  | .ok q => .ok { s with position := q }
  | .apiError c =>
      if c = 40410000 then .ok { s with position := 0 } else .error c

/-- Observable actions of `Runner.start`: calling a strategy's `start` (by
index) and opening the realtime event subscription. -/
inductive RunnerAction where
  | strategyStarted (i : Nat)
  | subscribed
deriving DecidableEq, Repr

/-- The `for strategy in self.strategies: strategy.start()` loop.  Each
strategy's `start` either returns (`none`) or raises an error code
(`some e`); a raise propagates out of the loop uncaught. -/
def runStarts (i : Nat) : List (Option Nat) → Except Nat (List RunnerAction)
  | [] => .ok []
  | r :: rs =>
      match r with
      | some e => .error e
      | none =>
          match runStarts (i + 1) rs with
          | .ok as => .ok (.strategyStarted i :: as)
          | .error e => .error e

/-- `Runner.start`: if `ABORT_IF_CLOSED` is set and the broker clock reports
the market closed, return immediately; otherwise run every strategy's
`start` and then open the event subscription. -/
def runner_start (abortIfClosed : Bool) (isOpen : Bool)
    (startResults : List (Option Nat)) : Except Nat (List RunnerAction) :=
  if abortIfClosed && !isOpen then .ok []
  else
    match runStarts 0 startResults with
    | .ok as => .ok (as ++ [.subscribed])
    | .error e => .error e

/-- Transcribed from the spec sentence for level-change determinism: walk the
quote sequence keeping a tracked bid, tracked ask and current quote; a quote
whose bid differs from the tracked bid, whose ask differs from the tracked
ask and whose spread is `0.01` becomes the new current quote, every other
quote changes nothing.  This definition follows the spec's words and is
compared against `processQuotes`, which is translated from the source. -/
def spec_last_accepted (cb ca : ℚ) (cur : Quote) : List Quote → Quote
  | [] => cur
  | q :: qs =>
      if cb ≠ q.bid ∧ ca ≠ q.ask ∧ q.spread = 1 / 100 then
        spec_last_accepted q.bid q.ask q qs
      else
        spec_last_accepted cb ca cur qs

/-- The symbol `"SNAP"` (the source's default instrument), used for concrete
instantiations. -/
def snapSym : Sym := [83, 78, 65, 80]

/-- A zero-initialized quote, as `TickTakerStrategy.__init__` builds for
`current_quote` and `previous_quote`. -/
def zeroQuote : Quote :=
  { symbol := snapSym, bid := 0, ask := 0, bid_size := 0, ask_size := 0, timestamp := 0 }

/-- A concrete quote at bid `10.00` / ask `10.01` with sizes `500/100`
(scenario 1 of the spec). -/
def sampleQuote : Quote :=
  { symbol := snapSym, bid := 10, ask := 1001 / 100, bid_size := 500, ask_size := 100
    timestamp := 0 }

/-- A strategy state tracking `sampleQuote` as the current level, flat
position, default configuration (`max_quantity = 500`,
`quantity_per_trade = 100`). -/
def sampleState : TickState :=
  { symbol := snapSym, max_quantity := 500, quantity_per_trade := 100
    current_quote := sampleQuote, previous_quote := zeroQuote
    position := 0, level_changes := 1 }

/-- A 200-share trade print at the ask, 100 ms after the current quote. -/
def sampleTrade : TradeData :=
  { symbol := snapSym, price := 1001 / 100, size := 200, timestamp := 100 }

/-- A live buy order for 100 shares of which 40 are filled (scenario 3 of
the spec after its first partial fill). -/
def partOrder : Order :=
  { id := [120, 49], symbol := snapSym, side := buySide
    quantity := 100, filled_quantity := 40 }

/-- A partial-fill notification for `partOrder` reporting 70 shares filled. -/
def sampleUpdate : UpdateData :=
  { event := partFillEvent, oid := [120, 49], osymbol := snapSym
    oside := buySide, oqty := 100, filled_qty := 70 }

/-- The symbol `"snap"`: the lowercase form of the default instrument. -/
def lowerSnap : Sym := [115, 110, 97, 112]

end TickTaker

namespace TickTaker

/-- C8: `TickTakerStrategy.start` stores the broker-reported quantity when
the position query succeeds; on the specific not-found `APIError` code
`40410000` it sets the position to `0` and returns normally; any other
broker error code is re-raised. -/
theorem start_position_cases (s : TickState) (q : ℚ) (c : Nat) :
    tick_start s (.ok q) = .ok { s with position := q }
    ∧ tick_start s (.apiError 40410000) = .ok { s with position := 0 }
    ∧ (c ≠ 40410000 → tick_start s (.apiError c) = .error c) := by
  refine ⟨rfl, rfl, fun h => ?_⟩
  simp [tick_start, h]

/-- Witness for C8: a concrete unknown error code is re-raised. -/
theorem start_position_cases_witness :
    tick_start sampleState (.apiError 50010001) = .error 50010001 :=
  (start_position_cases sampleState 0 50010001).2.2 (by decide)

/-- Helper: the strategy-start loop, when every strategy's `start` returns
normally, starts the strategies in order. -/
lemma runStarts_all_none (rs : List (Option Nat)) :
    ∀ i : Nat, (∀ r ∈ rs, r = none) →
      runStarts i rs = .ok ((List.range' i rs.length).map RunnerAction.strategyStarted) := by
  induction rs with
  | nil => intro i _; simp [runStarts]
  | cons r rs ih =>
      intro i h
      have hr : r = none := h r (by simp)
      subst hr
      have := ih (i + 1) (fun r hr => h r (by simp [hr]))
      simp [runStarts, this, List.range']

/-- C9: with the closed-market abort toggle enabled and the market closed,
`Runner.start` returns normally with no strategy started and no
subscription opened; otherwise (all strategy starts succeeding) it starts
every strategy in order and then subscribes. -/
theorem runner_start_abort (a o : Bool) (rs : List (Option Nat)) :
    (a = true → o = false → runner_start a o rs = .ok [])
    ∧ (¬(a = true ∧ o = false) → (∀ r ∈ rs, r = none) →
        runner_start a o rs =
          .ok ((List.range rs.length).map RunnerAction.strategyStarted
                ++ [.subscribed])) := by
  constructor
  · intro ha ho
    subst ha; subst ho
    simp [runner_start]
  · intro hao hnone
    have hcond : (a && !o) = false := by
      cases a <;> cases o <;> simp_all
    rw [List.range_eq_range']
    simp [runner_start, hcond, runStarts_all_none rs 0 hnone]

/-- Witness for C9: the abort branch and the normal branch at concrete
inputs. -/
theorem runner_start_abort_witness :
    runner_start true false [none, none] = .ok []
    ∧ runner_start false false [none, none] =
        .ok [.strategyStarted 0, .strategyStarted 1, .subscribed] := by
  constructor
  · exact (runner_start_abort true false [none, none]).1 rfl rfl
  · have := (runner_start_abort false false [none, none]).2
      (by simp) (by intro r hr; simpa using hr)
    simpa [List.range] using this

/-- C1 (code bug): after a buy signal fires on the current level, the
current quote's `has_traded` flag is still `false` — the source assigns the
dynamically created attribute `traded` instead of `has_traded` — so a second
identical trade notification for the same level is evaluated again and
submits a second order instead of being ignored. -/
theorem has_traded_bug_double_submit :
    (on_trade sampleState [] sampleTrade).1.current_quote.has_traded = false
    ∧ (on_trade sampleState [] sampleTrade).1.current_quote.traded = true
    ∧ (on_trade sampleState [] sampleTrade).2.length = 1
    ∧ (on_trade (on_trade sampleState [] sampleTrade).1 [] sampleTrade).2.length = 1 := by
  norm_num [on_trade, evalSignals, buyBranch, sellBranch, sampleState,
    sampleTrade, sampleQuote, can_buy, can_sell, total_position, ordersView,
    buyable_quantity, IMBALANCE_THRESHOLD, snapSym]

/-- C4: a trade notification reaches signal evaluation exactly when its
symbol equals the strategy's symbol, the current level has not traded, its
timestamp exceeds the current quote's timestamp plus 50 ms, and its size is
at least 100 shares; each of the four ignore conditions alone returns the
state unchanged with no submission. -/
theorem trade_ignore_completeness (s : TickState) (reg : List Order) (d : TradeData) :
    (on_trade s reg d =
      if d.symbol ≠ s.symbol ∨ s.current_quote.has_traded = true
          ∨ d.timestamp ≤ s.current_quote.timestamp + 50 ∨ d.size < 100
      then (s, []) else evalSignals s reg d)
    ∧ (d.symbol ≠ s.symbol → on_trade s reg d = (s, []))
    ∧ (s.current_quote.has_traded = true → on_trade s reg d = (s, []))
    ∧ (d.timestamp ≤ s.current_quote.timestamp + 50 → on_trade s reg d = (s, []))
    ∧ (d.size < 100 → on_trade s reg d = (s, [])) := by
  have key : on_trade s reg d =
      if d.symbol ≠ s.symbol ∨ s.current_quote.has_traded = true
          ∨ d.timestamp ≤ s.current_quote.timestamp + 50 ∨ d.size < 100
      then (s, []) else evalSignals s reg d := by
    unfold on_trade
    by_cases h1 : d.symbol ≠ s.symbol
    · simp [h1]
    · by_cases h2 : s.current_quote.has_traded
      · simp [h1, h2]
      · by_cases h3 : d.timestamp ≤ s.current_quote.timestamp + 50
        · simp [h1, h2, h3]
        · by_cases h4 : d.size < 100
          · simp [h1, h2, h3, h4]
          · simp [h1, h2, h3, h4]
  refine ⟨key, fun h => ?_, fun h => ?_, fun h => ?_, fun h => ?_⟩ <;>
    rw [key] <;> simp [h]

/-- Witness for C4: a 50-share trade (below the noise filter) is ignored. -/
theorem trade_ignore_completeness_witness :
    on_trade sampleState [] { sampleTrade with size := 50 } = (sampleState, []) :=
  (trade_ignore_completeness sampleState [] { sampleTrade with size := 50 }).2.2.2.2
    (by norm_num [sampleTrade])

/-- Helper: the source's level tracker agrees with the spec's description of
it on every quote sequence. -/
lemma processQuotes_spec (qs : List Quote) : ∀ s : TickState,
    (processQuotes s qs).current_quote =
      spec_last_accepted s.current_quote.bid s.current_quote.ask s.current_quote qs := by
  induction qs with
  | nil => intro s; rfl
  | cons q qs ih =>
      intro s
      rw [processQuotes, spec_last_accepted]
      by_cases h : s.current_quote.bid ≠ q.bid ∧ s.current_quote.ask ≠ q.ask
          ∧ q.spread = 1 / 100
      · rw [if_pos h, ih]
        rw [on_quote, if_pos h]
      · rw [if_neg h, ih]
        rw [on_quote, if_neg h]

/-- C5: a quote failing the three-part level-change test (bid changed, ask
changed, spread exactly `0.01`) leaves the strategy state unchanged; an
accepted quote shifts `current` to `previous`, becomes the new `current` and
increments `level_changes`; consequently, over any quote sequence, the
current quote after processing is the last quote accepted by that test
against the evolving tracked level. -/
theorem level_change_determinism (s : TickState) (q : Quote) (qs : List Quote) :
    (¬(s.current_quote.bid ≠ q.bid ∧ s.current_quote.ask ≠ q.ask ∧ q.spread = 1 / 100) →
        on_quote s q = s)
    ∧ ((s.current_quote.bid ≠ q.bid ∧ s.current_quote.ask ≠ q.ask ∧ q.spread = 1 / 100) →
        on_quote s q =
          { s with
            previous_quote := s.current_quote
            current_quote := q
            level_changes := s.level_changes + 1 })
    ∧ (processQuotes s qs).current_quote =
        spec_last_accepted s.current_quote.bid s.current_quote.ask s.current_quote qs := by
  refine ⟨fun h => ?_, fun h => ?_, processQuotes_spec qs s⟩
  · rw [on_quote, if_neg h]
  · rw [on_quote, if_pos h]

/-- Witness for C5: a quote repeating the tracked bid is dropped, and a
fresh two-sided minimum-spread quote over the zero-initialized level is
accepted. -/
theorem level_change_determinism_witness :
    on_quote sampleState sampleQuote = sampleState
    ∧ on_quote { sampleState with current_quote := zeroQuote } sampleQuote =
        { sampleState with
          previous_quote := zeroQuote
          current_quote := sampleQuote
          level_changes := 2 } := by
  constructor
  · exact (level_change_determinism sampleState sampleQuote []).1
      (by norm_num [sampleState, sampleQuote])
  · exact (level_change_determinism { sampleState with current_quote := zeroQuote }
      sampleQuote []).2.1
      (by norm_num [sampleState, sampleQuote, zeroQuote, Quote.spread, round2,
        roundHalfEven])

/-- Helper: the sum of full directional quantities over a list of orders
splits into the signed filled parts plus the signed pending parts. -/
lemma dirq_sum_split (l : List Order) :
    (l.map Order.directional_quantity).sum =
      (l.map (fun o => o.filled_quantity * (if o.is_buy then 1 else -1))).sum
      + (l.map (fun o => Order.pending o * (if o.is_buy then 1 else -1))).sum := by
  induction l with
  | nil => simp
  | cons o l ih =>
      simp only [List.map_cons, List.sum_cons, ih, Order.directional_quantity,
        Order.pending]
      ring

/-- C3 counterexample: with a flat position and one live buy order for 100
shares of which 40 are filled, the code's total exposure is `100` (the full
requested quantity), while position plus the signed pending quantity is
`60`; the two disagree, so a partially filled live order does not contribute
only its unfilled remainder. -/
theorem total_position_counts_full_quantity :
    total_position sampleState [partOrder] = 100
    ∧ sampleState.position
        + ((ordersView sampleState [partOrder]).map
            (fun o => Order.pending o * (if o.is_buy then 1 else -1))).sum = 60
    ∧ total_position sampleState [partOrder] ≠
        sampleState.position
        + ((ordersView sampleState [partOrder]).map
            (fun o => Order.pending o * (if o.is_buy then 1 else -1))).sum := by
  norm_num [total_position, ordersView, sampleState, partOrder, Order.pending,
    Order.is_buy, Order.directional_quantity, buySide, snapSym]

/-- C3 amended: the total exposure used in signal evaluation equals the
confirmed position plus, over the live orders for the strategy's instrument,
the signed filled quantity plus the signed unfilled remainder — that is,
each live order contributes its full requested quantity, a partially filled
order included. -/
theorem total_position_decomposition (s : TickState) (reg : List Order) :
    total_position s reg =
      s.position
      + ((ordersView s reg).map
          (fun o => o.filled_quantity * (if o.is_buy then 1 else -1))).sum
      + ((ordersView s reg).map
          (fun o => Order.pending o * (if o.is_buy then 1 else -1))).sum := by
  rw [total_position, dirq_sum_split]
  ring

/-- Helper: ASCII uppercasing is idempotent on one code point. -/
lemma charUpper_idem (n : Nat) : charUpper (charUpper n) = charUpper n := by
  unfold charUpper
  split_ifs <;> omega

/-- Helper: `str.upper` is idempotent. -/
lemma sUpper_idem (u : Sym) : sUpper (sUpper u) = sUpper u := by
  unfold sUpper
  rw [List.map_map]
  exact List.map_congr_left (fun a _ => charUpper_idem a)

/-- Helper: a string produced by `str.upper` never equals a string that is
not a fixed point of `str.upper`. -/
lemma sUpper_ne_of_not_upper {v u : Sym} (hv : v ≠ sUpper v) : sUpper u ≠ v := by
  intro h
  exact hv (by rw [← h, sUpper_idem])

/-- C10: an `Order` stores its symbol uppercased and its side lowercased,
order-to-strategy matching is exact string equality against that uppercased
symbol, and therefore a strategy whose configured symbol is not a fixed
point of uppercasing matches no broker-created order: its filtered orders
view is empty and its order-update handler changes nothing. -/
theorem symbol_case_matching (s : TickState) (reg : List Order) (ev : Sym)
    (f : ℚ) (d : UpdateData) (hsym : s.symbol ≠ sUpper s.symbol) :
    (Order.from_data d).symbol = sUpper d.osymbol
    ∧ (Order.from_data d).side = sLower d.oside
    ∧ (Order.from_data d).symbol ≠ s.symbol
    ∧ ((∀ o ∈ reg, ∃ u, o.symbol = sUpper u) → ordersView s reg = [])
    ∧ (∀ o : Order, (∃ u, o.symbol = sUpper u) →
        strat_on_trade_updates s reg ev o f = (s, reg)) := by
  refine ⟨rfl, rfl, sUpper_ne_of_not_upper hsym, fun hreg => ?_, fun o hu => ?_⟩
  · rw [ordersView, List.filter_eq_nil_iff]
    intro o ho
    obtain ⟨u, hu⟩ := hreg o ho
    simp only [beq_iff_eq, hu]
    exact sUpper_ne_of_not_upper hsym
  · obtain ⟨u, hu⟩ := hu
    rw [strat_on_trade_updates, if_pos]
    rw [hu]
    exact sUpper_ne_of_not_upper hsym

/-- Witness for C10: a strategy configured with the lowercase symbol
`"snap"` ignores an order-update for a broker-created `"SNAP"` order. -/
theorem symbol_case_matching_witness :
    strat_on_trade_updates { sampleState with symbol := lowerSnap } [partOrder]
        fillEvent partOrder 100 =
      ({ sampleState with symbol := lowerSnap }, [partOrder]) :=
  (symbol_case_matching { sampleState with symbol := lowerSnap } [partOrder]
      fillEvent 100 sampleUpdate (by decide)).2.2.2.2 partOrder
    ⟨lowerSnap, by decide⟩

/-- Helper: entries of the registry after a removal are entries of the
registry with a different id. -/
lemma mem_removeOrder {reg : List Order} {oid : Sym} {p : Order}
    (hp : p ∈ removeOrder reg oid) : p ∈ reg ∧ p.id ≠ oid := by
  have h := List.mem_filter.mp hp
  refine ⟨h.1, ?_⟩
  simpa using h.2

/-- Helper: removing an order whose id occurs exactly once removes exactly
that entry — the registry before the removal is a permutation of the removed
order consed onto the registry after it. -/
lemma removeOrder_perm (reg : List Order) (o : Order)
    (hn : (reg.map Order.id).Nodup) (ho : o ∈ reg) :
    reg.Perm (o :: removeOrder reg o.id) := by
  induction reg with
  | nil => cases ho
  | cons p rest ih =>
      have hn' : (∀ x ∈ rest, ¬x.id = p.id) ∧ (List.map Order.id rest).Nodup := by
        simpa using hn
      rcases List.mem_cons.mp ho with h | h
      · rw [h]
        have hrem : removeOrder (p :: rest) p.id = rest := by
          rw [removeOrder, List.filter_cons, if_neg (by simp)]
          rw [show (rest.filter fun x => !(x.id == p.id)) = rest from ?_]
          rw [List.filter_eq_self]
          intro x hx
          simpa using hn'.1 x hx
        rw [hrem]
      · have hpo : p.id ≠ o.id := Ne.symm (hn'.1 o h)
        have hstep : removeOrder (p :: rest) o.id = p :: removeOrder rest o.id := by
          rw [removeOrder, List.filter_cons, if_pos (by simpa using hpo)]
          rfl
        rw [hstep]
        exact ((ih hn'.2 h).cons p).trans (List.Perm.swap o p _)

/-- C6: for an order-update event whose order belongs to the strategy's
instrument, a fill or partial-fill sets the order's `filled_quantity` from
the notification; if that makes the order fully filled, its
`directional_quantity` is added to the position exactly once and the order
is removed from the registry exactly once (the old registry is a permutation
of the settled order consed onto the new one, which no longer holds its id);
a canceled or rejected event removes the order with the position unchanged;
an update for a different instrument changes nothing. -/
theorem order_update_cases (s : TickState) (reg : List Order) (ev : Sym)
    (o : Order) (f : ℚ)
    (hn : (reg.map Order.id).Nodup) (ho : o ∈ reg) :
    (o.symbol ≠ s.symbol → strat_on_trade_updates s reg ev o f = (s, reg))
    ∧ (o.symbol = s.symbol → (ev = fillEvent ∨ ev = partFillEvent) →
        f = o.quantity →
        strat_on_trade_updates s reg ev o f =
          ({ s with position := s.position + o.directional_quantity },
            removeOrder reg o.id)
        ∧ reg.Perm (o :: removeOrder reg o.id)
        ∧ ∀ p ∈ removeOrder reg o.id, p.id ≠ o.id)
    ∧ (o.symbol = s.symbol → (ev = fillEvent ∨ ev = partFillEvent) →
        f ≠ o.quantity →
        strat_on_trade_updates s reg ev o f =
          (s, setOrder reg o.id { o with filled_quantity := f }))
    ∧ (o.symbol = s.symbol → (ev = canceledEvent ∨ ev = rejectedEvent) →
        strat_on_trade_updates s reg ev o f = (s, removeOrder reg o.id)
        ∧ reg.Perm (o :: removeOrder reg o.id)) := by
  refine ⟨fun hmis => ?_, fun hsy hev hf => ?_, fun hsy hev hf => ?_,
    fun hsy hev => ?_⟩
  · rw [strat_on_trade_updates, if_pos hmis]
  · refine ⟨?_, removeOrder_perm reg o hn ho, fun p hp => (mem_removeOrder hp).2⟩
    rw [strat_on_trade_updates, if_neg (by simp [hsy]), if_pos hev]
    have hfill : Order.is_filled { o with filled_quantity := f } = true := by
      simp [Order.is_filled, hf]
    rw [if_pos hfill]
    have hdir : Order.directional_quantity { o with filled_quantity := f } =
        o.directional_quantity := rfl
    rw [hdir]
  · rw [strat_on_trade_updates, if_neg (by simp [hsy]), if_pos hev]
    have hfill : Order.is_filled { o with filled_quantity := f } = false := by
      simp [Order.is_filled]
      exact fun h => absurd h.symm hf
    rw [if_neg (by simp [hfill])]
  · have hev1 : ¬(ev = fillEvent ∨ ev = partFillEvent) := by
      rcases hev with h | h <;> subst h <;> decide
    refine ⟨?_, removeOrder_perm reg o hn ho⟩
    rw [strat_on_trade_updates, if_neg (by simp [hsy]), if_neg hev1, if_pos hev]

/-- Witness for C6: the full-fill notification for `partOrder` settles it —
the position grows by its directional quantity `+100` and the registry
becomes empty. -/
theorem order_update_cases_witness :
    strat_on_trade_updates sampleState [partOrder] fillEvent partOrder 100 =
      ({ sampleState with position := 100 }, []) := by
  have h := (order_update_cases sampleState [partOrder] fillEvent partOrder 100
      (by simp) (by simp)).2.1 rfl (Or.inl rfl) (by norm_num [partOrder])
  rw [h.1]
  norm_num [partOrder, sampleState, removeOrder, Order.directional_quantity,
    Order.is_buy, buySide]

/-- Helper: `str.lower` fixes the string `"buy"`. -/
lemma sLower_buySide : sLower buySide = buySide := by decide

/-- Helper: a trade with a non-empty submission list got past the ignore
guards, so `on_trade` is the signal-evaluation body there. -/
lemma on_trade_eval (s : TickState) (reg : List Order) (d : TradeData)
    (h : (on_trade s reg d).2 ≠ []) :
    on_trade s reg d = evalSignals s reg d := by
  unfold on_trade at h ⊢
  split_ifs at h ⊢ <;> simp_all

/-- Helper: signal evaluation never changes the strategy's position, symbol,
cap or clip size, only the current quote. -/
lemma evalSignals_fst (s : TickState) (reg : List Order) (d : TradeData) :
    (evalSignals s reg d).1.position = s.position
    ∧ (evalSignals s reg d).1.symbol = s.symbol
    ∧ (evalSignals s reg d).1.max_quantity = s.max_quantity
    ∧ (evalSignals s reg d).1.quantity_per_trade = s.quantity_per_trade := by
  unfold evalSignals sellBranch buyBranch
  split_ifs <;> simp

/-- Helper: a buy-side submission produced by signal evaluation comes from
the buy branch, so the buy signal held and the submission is for
`buyable_quantity` shares of the strategy's instrument. -/
lemma evalSignals_mem_buy (s : TickState) (reg : List Order) (d : TradeData)
    (b : SubmitReq) (hb : b ∈ (evalSignals s reg d).2) (hside : b.side = buySide) :
    can_buy s reg ∧ b.symbol = s.symbol ∧ b.qty = buyable_quantity s reg := by
  have hsplit : b ∈ (buyBranch s reg d).2
      ∨ b ∈ (sellBranch (buyBranch s reg d).1 reg d).2 := by
    simpa [evalSignals] using hb
  rcases hsplit with h | h
  · rw [buyBranch] at h
    split_ifs at h with hc
    · simp only [List.mem_singleton] at h
      subst h
      exact ⟨hc.2.2, rfl, rfl⟩
    · simp at h
  · rw [sellBranch] at h
    split_ifs at h with hc
    · simp only [List.mem_singleton] at h
      subst h
      exact absurd (show sellSide = buySide from hside) (by decide)
    · simp at h

/-- Helper: registering the broker's echo of a buy submission (via the lazy
`Order.from_data` insert) adds exactly its submitted quantity to the
strategy's total exposure, for any state sharing the submitting state's
position and symbol. -/
lemma exposure_after_register (s s' : TickState) (reg : List Order) (oid : Sym)
    (b : SubmitReq)
    (hpos : s'.position = s.position) (hsy : s'.symbol = s.symbol)
    (hupper : sUpper s.symbol = s.symbol)
    (hbsym : b.symbol = s.symbol) (hbside : b.side = buySide) :
    total_position s' (reg ++ [Order.from_submit oid b]) =
      total_position s reg + b.qty := by
  unfold total_position ordersView
  have h1 : (List.filter (fun o => o.symbol == s'.symbol) [Order.from_submit oid b])
      = [Order.from_submit oid b] := by
    simp [Order.from_submit, hbsym, hupper, hsy]
  rw [List.filter_append, h1, List.map_append, List.sum_append, hsy, hpos]
  have h3 : Order.directional_quantity (Order.from_submit oid b) = b.qty := by
    simp [Order.from_submit, Order.directional_quantity, Order.is_buy, hbside,
      sLower_buySide]
  simp [h3]
  ring

/-- C2: a buy submission fires only when total exposure is strictly below
`max_quantity`; its quantity is `min(quantity_per_trade, max_quantity −
total_exposure)`, hence exactly the remaining headroom on a constrained buy;
and once the submitted order registers, total exposure does not exceed
`max_quantity`.  Universally quantified over the pre-state, this bounds the
exposure after each accepted buy of any sequence of buy signals. -/
theorem buy_exposure_cap (s : TickState) (reg : List Order) (d : TradeData)
    (b : SubmitReq) (oid : Sym)
    (hupper : sUpper s.symbol = s.symbol)
    (hb : b ∈ (on_trade s reg d).2) (hside : b.side = buySide) :
    total_position s reg < s.max_quantity
    ∧ b.qty = min s.quantity_per_trade (s.max_quantity - total_position s reg)
    ∧ (s.max_quantity - total_position s reg < s.quantity_per_trade →
        b.qty = s.max_quantity - total_position s reg)
    ∧ total_position (on_trade s reg d).1 (reg ++ [Order.from_submit oid b])
        ≤ s.max_quantity := by
  have hne : (on_trade s reg d).2 ≠ [] := by
    intro hh
    rw [hh] at hb
    exact List.not_mem_nil b hb
  have heq := on_trade_eval s reg d hne
  rw [heq] at hb
  obtain ⟨hcb, hbsym, hbqty⟩ := evalSignals_mem_buy s reg d b hb hside
  have hfst := evalSignals_fst s reg d
  refine ⟨hcb, hbqty, fun hlt => ?_, ?_⟩
  · rw [hbqty, buyable_quantity, min_eq_right (le_of_lt hlt)]
  · rw [heq, exposure_after_register s (evalSignals s reg d).1 reg oid b
      hfst.1 hfst.2.1 hupper hbsym hside]
    have hmin : b.qty ≤ s.max_quantity - total_position s reg := by
      rw [hbqty, buyable_quantity]
      exact min_le_right _ _
    linarith

/-- Witness for C2: scenario 1's trade fires an unconstrained buy for the
full 100-share clip with the flat exposure below the 500-share cap. -/
theorem buy_exposure_cap_witness :
    total_position sampleState [] < sampleState.max_quantity
    ∧ (SubmitReq.mk snapSym 100 buySide (1001 / 100)).qty
        = min sampleState.quantity_per_trade
            (sampleState.max_quantity - total_position sampleState []) := by
  have hb : SubmitReq.mk snapSym 100 buySide (1001 / 100)
      ∈ (on_trade sampleState [] sampleTrade).2 := by
    norm_num [on_trade, evalSignals, buyBranch, sellBranch, sampleState,
      sampleTrade, sampleQuote, can_buy, can_sell, total_position, ordersView,
      buyable_quantity, IMBALANCE_THRESHOLD, snapSym, min_def]
  have h := buy_exposure_cap sampleState [] sampleTrade
    (SubmitReq.mk snapSym 100 buySide (1001 / 100)) [120, 49] (by decide) hb rfl
  exact ⟨h.1, h.2.1⟩

/-- Helper: every order in the registry after a strategy order-update step
was already in the registry before it, or is the handled order with its
`filled_quantity` overwritten by the notification's value. -/
lemma strat_update_mem (s : TickState) (reg : List Order) (ev : Sym)
    (o : Order) (f : ℚ) :
    ∀ o' ∈ (strat_on_trade_updates s reg ev o f).2,
      o' ∈ reg ∨ o' = { o with filled_quantity := f } := by
  intro o' ho'
  unfold strat_on_trade_updates at ho'
  split_ifs at ho' with h1 h2 h3 h4
  · exact Or.inl ho'
  · exact Or.inl (mem_removeOrder ho').1
  · rcases List.mem_map.mp ho' with ⟨p, hp, hpe⟩
    by_cases hpid : (p.id == o.id) = true
    · rw [if_pos hpid] at hpe
      exact Or.inr hpe.symm
    · rw [if_neg hpid] at hpe
      exact Or.inl (hpe ▸ hp)
  · exact Or.inl (mem_removeOrder ho').1
  · exact Or.inl ho'

/-- Helper: a registry with pairwise distinct ids stays id-distinct after
appending an order with a fresh id. -/
lemma nodup_append_fresh (reg : List Order) (n : Order)
    (hn : (reg.map Order.id).Nodup) (hfresh : ∀ x ∈ reg, x.id ≠ n.id) :
    ((reg ++ [n]).map Order.id).Nodup := by
  rw [List.map_append]
  simp only [List.map_cons, List.map_nil]
  rw [List.nodup_append]
  refine ⟨hn, List.nodup_singleton _, ?_⟩
  intro a ha hb
  rcases List.mem_map.mp ha with ⟨x, hx, hxe⟩
  simp only [List.mem_singleton] at hb
  exact hfresh x hx (hxe ▸ hb)

/-- C7: across one Runner order-update dispatch, every registry order keeps
its `id`, `symbol`, `side` and `quantity`; only `filled_quantity` moves, and
it stays non-decreasing and within `[0, quantity]` whenever the broker's
reported cumulative `filled_qty` does (the code copies the notification's
value verbatim). -/
theorem order_fields_invariant (s : TickState) (reg : List Order) (d : UpdateData)
    (o o' : Order) (hn : (reg.map Order.id).Nodup) (ho : o ∈ reg)
    (ho' : o' ∈ (runner_on_trade_updates s reg d).2) (hid : o'.id = o.id) :
    o'.symbol = o.symbol ∧ o'.side = o.side ∧ o'.quantity = o.quantity
    ∧ (o.filled_quantity ≤ d.filled_qty → o.filled_quantity ≤ o'.filled_quantity)
    ∧ (0 ≤ o.filled_quantity → 0 ≤ d.filled_qty → 0 ≤ o'.filled_quantity)
    ∧ (o.filled_quantity ≤ o.quantity → d.filled_qty ≤ o.quantity →
        o'.filled_quantity ≤ o'.quantity) := by
  unfold runner_on_trade_updates at ho'
  cases hu : lookupOrder reg d.oid with
  | some u =>
      rw [hu] at ho'
      have humem : u ∈ reg := List.mem_of_find?_eq_some hu
      rcases strat_update_mem s reg d.event u d.filled_qty o' ho' with h | h
      · have heq : o' = o := List.inj_on_of_nodup_map hn h ho hid
        subst heq
        exact ⟨rfl, rfl, rfl, fun _ => le_rfl, fun h _ => h, fun h _ => h⟩
      · have huo : u = o := by
          refine List.inj_on_of_nodup_map hn humem ho ?_
          rw [← hid, h]
        subst huo
        subst h
        exact ⟨rfl, rfl, rfl, fun hh => hh, fun _ hh => hh, fun _ hh => hh⟩
  | none =>
      rw [hu] at ho'
      have hfresh : ∀ x ∈ reg, x.id ≠ (Order.from_data d).id := by
        intro x hx
        have := List.find?_eq_none.mp hu x hx
        simpa [Order.from_data] using this
      have hoid : o.id ≠ (Order.from_data d).id := hfresh o ho
      rcases strat_update_mem s (reg ++ [Order.from_data d]) d.event
          (Order.from_data d) d.filled_qty o' ho' with h | h
      · rcases List.mem_append.mp h with h | h
        · have heq : o' = o := List.inj_on_of_nodup_map hn h ho hid
          subst heq
          exact ⟨rfl, rfl, rfl, fun _ => le_rfl, fun h _ => h, fun h _ => h⟩
        · exfalso
          apply hoid
          rw [← hid]
          simp only [List.mem_singleton] at h
          rw [h]
      · exfalso
        apply hoid
        rw [← hid, h]

/-- Witness for C7: the 70-share partial-fill notification on `partOrder`
leaves its requested quantity unchanged and raises `filled_quantity` from 40
to a value at least 40. -/
theorem order_fields_invariant_witness :
    (Order.mk [120, 49] snapSym buySide 100 70).quantity = partOrder.quantity
    ∧ partOrder.filled_quantity ≤ (Order.mk [120, 49] snapSym buySide 100 70).filled_quantity := by
  have hmem : Order.mk [120, 49] snapSym buySide 100 70
      ∈ (runner_on_trade_updates sampleState [partOrder] sampleUpdate).2 := by
    norm_num [runner_on_trade_updates, lookupOrder, strat_on_trade_updates,
      setOrder, removeOrder, partOrder, sampleUpdate, sampleState, snapSym,
      Order.is_filled, fillEvent, partFillEvent, canceledEvent, rejectedEvent,
      List.find?]
  have h := order_fields_invariant sampleState [partOrder] sampleUpdate partOrder
    (Order.mk [120, 49] snapSym buySide 100 70) (by simp) (by simp) hmem rfl
  exact ⟨h.2.2.1, h.2.2.2.1 (by norm_num [partOrder, sampleUpdate])⟩

end TickTaker
